import Mathlib

/-!
Verification of the SafeAudioEngine of `tinnitus_tuner` (src/audioEngine.ts).

Numeric audio parameters (gains, frequencies, samples) are modelled as exact
rationals `ℚ`; the decimal literals below denote the same decimal constants
written in the source.  Stateful pieces (volume state, the noise-buffer
cache, the coordinated-reset sequencer) are modelled by explicit state
passing; `Math.random()` draws are modelled as explicit input streams.
-/

namespace SafeAudioEngine

/-- `MAX_SAFE_GAIN = 0.45` (src/audioEngine.ts:28). -/
def MAX_SAFE_GAIN : ℚ := 0.45

/-- `FADE_IN_SEC = 0.35` (src/audioEngine.ts:29). -/
def FADE_IN_SEC : ℚ := 0.35

/-- `FADE_OUT_SEC = 0.12` (src/audioEngine.ts:30). -/
def FADE_OUT_SEC : ℚ := 0.12

/-- `MIN_FREQ = 20` (src/audioEngine.ts:31). -/
def MIN_FREQ : ℚ := 20

/-- `MAX_FREQ = 20000` (src/audioEngine.ts:32). -/
def MAX_FREQ : ℚ := 20000

/-- The `GAIN_SCALAR` record (src/audioEngine.ts:35-43): per-waveform
attenuation scalars, `none` for identifiers not in the record. -/
def GAIN_SCALAR : String → Option ℚ
  | "sine"     => some 1.0
  | "square"   => some 0.15
  | "sawtooth" => some 0.2
  | "triangle" => some 0.5
  | "white"    => some 0.15
  | "pink"     => some 0.5
  | "brown"    => some 1.0
  | _          => none

/-- `clampFreq` (src/audioEngine.ts:46-48):
`Math.max(MIN_FREQ, Math.min(f, MAX_FREQ))`. -/
def clampFreq (f : ℚ) : ℚ := max MIN_FREQ (min f MAX_FREQ)

/-- `clampGain` (src/audioEngine.ts:50-52):
`Math.max(0, Math.min(v, MAX_SAFE_GAIN))`. -/
def clampGain (v : ℚ) : ℚ := max 0 (min v MAX_SAFE_GAIN)

/-- `setVolume` (src/audioEngine.ts:114-119) stores `clampGain v` into
`this._vol`. -/
def setVolumeStored (v : ℚ) : ℚ := clampGain v

/-- The gain target `setVolume` ramps the master gain toward while playing
(src/audioEngine.ts:117): `setTargetAtTime(this._vol, …)` with
`this._vol = clampGain v`. -/
def setVolumeRampTarget (v : ℚ) : ℚ := clampGain v

/-- The gain value `fadeIn` ramps the master gain toward
(src/audioEngine.ts:122-130): `Math.max(clampGain target, 0.0001)`. -/
def fadeInTarget (target : ℚ) : ℚ := max (clampGain target) 0.0001

/-- The argument `playTone` hands to `fadeIn` (src/audioEngine.ts:233):
`this._vol * (GAIN_SCALAR[wave] ?? 1)`. -/
def playToneFadeArg (vol : ℚ) (wave : String) : ℚ :=
  vol * ((GAIN_SCALAR wave).getD 1)

/-- The argument `playNoise`/`playNotchedNoise` hand to `fadeIn`
(src/audioEngine.ts:263, 293): `this._vol * (GAIN_SCALAR[color] ?? 0.3)`. -/
def playNoiseFadeArg (vol : ℚ) (color : String) : ℚ :=
  vol * ((GAIN_SCALAR color).getD 0.3)

/-- The per-tone gain target the coordinated-reset sequencer ramps the newly
selected tone toward each tick (src/audioEngine.ts:341):
`gains[cur].gain.setTargetAtTime(0.5, …)`. -/
def crRiseTarget : ℚ := 0.5

/-- The per-tone gain target the sequencer ramps the previously selected
tone toward (src/audioEngine.ts:337): `setTargetAtTime(0, …)`. -/
def crFallTarget : ℚ := 0

/-! ### Signal-graph node model

`SourceNode` models the entries of `this.sources` (an
`AudioScheduledSourceNode[]`): oscillators carry their waveform type and the
value programmed into `frequency`, buffer sources carry their sample buffer
and looping flag.  `MidNode` models the entries of `this.nodes`
(intermediate `AudioNode`s): biquad filters carry type, centre frequency
and Q, gain nodes carry their gain value, channel mergers carry nothing. -/

inductive SourceNode where
  | osc (wave : String) (freq : ℚ)
  | bufferSrc (samples : List ℚ) (loop : Bool)
  deriving DecidableEq, Repr

inductive MidNode where
  | filter (ftype : String) (freq : ℚ) (q : ℚ)
  | gainNode (g : ℚ)
  | merger
  deriving DecidableEq, Repr

/-- The live graph a `play*` method leaves behind: the `sources` and
`nodes` arrays it pushed into. -/
structure Graph where
  sources : List SourceNode
  nodes : List MidNode
  deriving DecidableEq, Repr

/-- `playTone` graph (src/audioEngine.ts:220-234): one oscillator of the
requested waveform at `clampFreq freq`, no intermediate nodes. -/
def playToneGraph (freq : ℚ) (wave : String) : Graph :=
  { sources := [.osc wave (clampFreq freq)], nodes := [] }

/-- `playNoise` graph (src/audioEngine.ts:237-264): a looping buffer source
and, when a centre frequency is supplied (truthy), a bandpass filter at
`clampFreq centerFreq` with the given Q. -/
def playNoiseGraph (buf : List ℚ) (centerFreq : Option ℚ) (q : ℚ) : Graph :=
  { sources := [.bufferSrc buf true]
    nodes := match centerFreq with
      | some c => [.filter "bandpass" (clampFreq c) q]
      | none => [] }

/-- `playNotchedNoise` graph (src/audioEngine.ts:270-294): a looping buffer
source through a notch filter at `clampFreq notchFreq`. -/
def playNotchedNoiseGraph (buf : List ℚ) (notchFreq : ℚ) (notchQ : ℚ) : Graph :=
  { sources := [.bufferSrc buf true]
    nodes := [.filter "notch" (clampFreq notchFreq) notchQ] }

/-- The fixed frequency ratios of coordinated reset
(src/audioEngine.ts:309): `[0.773, 0.867, 1.133, 1.227]`. -/
def crRatios : List ℚ := [0.773, 0.867, 1.133, 1.227]

/-- `playCoordinatedReset` graph (src/audioEngine.ts:309-329): for each
ratio `r`, a sine oscillator at `clampFreq (centerFreq * r)` pushed into
`sources` and a gain node initialised to 0 pushed into `nodes`. -/
def playCoordinatedResetGraph (centerFreq : ℚ) : Graph :=
  { sources := crRatios.map (fun r => .osc "sine" (clampFreq (centerFreq * r)))
    nodes := crRatios.map (fun _ => .gainNode 0) }

/-- `playAM` graph (src/audioEngine.ts:350-385): a sine carrier at
`clampFreq freq` and a sine LFO at `modRate` (unclamped) in `sources`;
the LFO depth gain (`modDepth * 0.5`) and output gain (`1 - modDepth * 0.5`)
in `nodes`. -/
def playAMGraph (freq : ℚ) (modRate : ℚ) (modDepth : ℚ) : Graph :=
  { sources := [.osc "sine" (clampFreq freq), .osc "sine" modRate]
    nodes := [.gainNode (modDepth * 0.5), .gainNode (1 - modDepth * 0.5)] }

/-- `playBinaural` graph (src/audioEngine.ts:391-417): left sine oscillator
at `clampFreq baseFreq`, right at `clampFreq (baseFreq + beatFreq)`, merged
by a channel merger. -/
def playBinauralGraph (baseFreq : ℚ) (beatFreq : ℚ) : Graph :=
  { sources := [.osc "sine" (clampFreq baseFreq),
                .osc "sine" (clampFreq (baseFreq + beatFreq))]
    nodes := [.merger] }

/-- `playPhaseCancellation` graph (src/audioEngine.ts:439-459): one sine
oscillator at `clampFreq freq` through a gain node fixed at −1. -/
def playPhaseCancellationGraph (freq : ℚ) : Graph :=
  { sources := [.osc "sine" (clampFreq freq)], nodes := [.gainNode (-1)] }

/-- `updateOscFrequency` (src/audioEngine.ts:463-471) applied to one source
node: oscillators get `frequency.setValueAtTime (clampFreq freq)`, other
sources are untouched. -/
def updateOscSource (freq : ℚ) : SourceNode → SourceNode
  | .osc wave _ => .osc wave (clampFreq freq)
  | .bufferSrc samples loop => .bufferSrc samples loop

/-- `updateOscFrequency` over the whole graph: iterates `this.sources`,
leaving `this.nodes` untouched. -/
def updateOscFrequency (freq : ℚ) (g : Graph) : Graph :=
  { sources := g.sources.map (updateOscSource freq), nodes := g.nodes }

/-- The frequency values programmed into oscillator nodes of a source
list. -/
def oscFreqs (srcs : List SourceNode) : List ℚ :=
  srcs.filterMap fun s => match s with
    | .osc _ f => some f
    | .bufferSrc _ _ => none

/-- The frequency values programmed into filter nodes of a node list. -/
def filterFreqs (ns : List MidNode) : List ℚ :=
  ns.filterMap fun n => match n with
    | .filter _ f _ => some f
    | _ => none

/-! ### Noise generation (src/audioEngine.ts:169-201)

Each generator consumes a list `ws` of white draws (the successive values of
`Math.random() * 2 - 1`) and produces the sample buffer `d`. -/

/-- Pink-noise filter state: the seven running variables
`b0 … b6` of src/audioEngine.ts:178. -/
structure PinkState where
  b0 : ℚ
  b1 : ℚ
  b2 : ℚ
  b3 : ℚ
  b4 : ℚ
  b5 : ℚ
  b6 : ℚ
  deriving DecidableEq, Repr

/-- All seven state variables start at 0 (src/audioEngine.ts:178). -/
def pinkInit : PinkState := ⟨0, 0, 0, 0, 0, 0, 0⟩

/-- One iteration of the pink-noise loop body (src/audioEngine.ts:180-188):
updates `b0 … b5`, emits the output sample reading the OLD `b6`, then
assigns `b6 = w * 0.115926`.  Returns (new state, output sample). -/
def pinkStep (s : PinkState) (w : ℚ) : PinkState × ℚ :=
  let b0 := 0.99886 * s.b0 + w * 0.0555179
  let b1 := 0.99332 * s.b1 + w * 0.0750759
  let b2 := 0.96900 * s.b2 + w * 0.1538520
  let b3 := 0.86650 * s.b3 + w * 0.3104856
  let b4 := 0.55000 * s.b4 + w * 0.5329522
  let b5 := -0.7616 * s.b5 - w * 0.0168980
  let out := (b0 + b1 + b2 + b3 + b4 + b5 + s.b6 + w * 0.5362) * 0.11
  (⟨b0, b1, b2, b3, b4, b5, w * 0.115926⟩, out)

/-- The pink-noise loop from a given state: returns the emitted samples. -/
def pinkOutputsFrom (s : PinkState) : List ℚ → List ℚ
  | [] => []
  | w :: ws =>
    let p := pinkStep s w
    p.2 :: pinkOutputsFrom p.1 ws

/-- The state left after the pink-noise loop has consumed `ws`. -/
def pinkStateAfter (s : PinkState) : List ℚ → PinkState
  | [] => s
  | w :: ws => pinkStateAfter (pinkStep s w).1 ws

/-- The full pink buffer for white draws `ws` (src/audioEngine.ts:177-189). -/
def pinkOutputs (ws : List ℚ) : List ℚ := pinkOutputsFrom pinkInit ws

/-- One iteration of the brown-noise loop body (src/audioEngine.ts:192-197):
`d[i] = (last + 0.02 * w) / 1.02; last = d[i]; d[i] *= 3.5`.  The value
stored back into `last` is the PRE-scaling value.  Returns
(new `last`, output sample). -/
def brownStep (last : ℚ) (w : ℚ) : ℚ × ℚ :=
  let y := (last + 0.02 * w) / 1.02
  (y, y * 3.5)

/-- The brown-noise loop from a given `last`: the emitted samples. -/
def brownOutputsFrom (last : ℚ) : List ℚ → List ℚ
  | [] => []
  | w :: ws =>
    let p := brownStep last w
    p.2 :: brownOutputsFrom p.1 ws

/-- The value of `last` after the brown loop has consumed `ws`. -/
def brownLastAfter (last : ℚ) : List ℚ → ℚ
  | [] => last
  | w :: ws => brownLastAfter (brownStep last w).1 ws

/-- The full brown buffer for white draws `ws`, with `last` starting at 0
(src/audioEngine.ts:190-198). -/
def brownOutputs (ws : List ℚ) : List ℚ := brownOutputsFrom 0 ws

/-- The recurrence the spec claims for brown noise: the feedback term is the
previous OUTPUT sample (the post-×3.5 value), starting at 0. -/
def brownSpecOutputsFrom (prevOut : ℚ) : List ℚ → List ℚ
  | [] => []
  | w :: ws =>
    let out := (prevOut + 0.02 * w) / 1.02 * 3.5
    out :: brownSpecOutputsFrom out ws

/-- Spec-claimed brown buffer, `previousOutput` starting at 0. -/
def brownSpecOutputs (ws : List ℚ) : List ℚ := brownSpecOutputsFrom 0 ws

/-- Noise colors accepted by `noiseBuf` (src/audioEngine.ts:169). -/
inductive NoiseColor where
  | white
  | pink
  | brown
  deriving DecidableEq, Repr

/-- What the generator writes into the buffer for each color, given the
stream of white draws `ws` (src/audioEngine.ts:175-198): white writes the
draws themselves, pink and brown run their filters. -/
def genNoise : NoiseColor → List ℚ → List ℚ
  | .white, ws => ws
  | .pink, ws => pinkOutputs ws
  | .brown, ws => brownOutputs ws

/-- The `this.noiseCache` record (src/audioEngine.ts:63): one optional
cached buffer per color. -/
structure NoiseCache where
  whiteBuf : Option (List ℚ)
  pinkBuf : Option (List ℚ)
  brownBuf : Option (List ℚ)
  deriving DecidableEq, Repr

/-- The empty cache a fresh engine starts with. -/
def NoiseCache.empty : NoiseCache := ⟨none, none, none⟩

/-- Cache lookup `this.noiseCache[type]`. -/
def NoiseCache.get (c : NoiseCache) : NoiseColor → Option (List ℚ)
  | .white => c.whiteBuf
  | .pink => c.pinkBuf
  | .brown => c.brownBuf

/-- Cache store `this.noiseCache[type] = buf`. -/
def NoiseCache.set (c : NoiseCache) (t : NoiseColor) (b : List ℚ) : NoiseCache :=
  match t with
  | .white => { c with whiteBuf := some b }
  | .pink => { c with pinkBuf := some b }
  | .brown => { c with brownBuf := some b }

/-- `noiseBuf` (src/audioEngine.ts:169-201): returns the cached buffer when
present (without consuming any randomness), otherwise generates from the
fresh white draws `ws` and caches the result.  Returns
(buffer, new cache state). -/
def noiseBuf (c : NoiseCache) (t : NoiseColor) (ws : List ℚ) :
    List ℚ × NoiseCache :=
  match c.get t with
  | some b => (b, c)
  | none =>
    let b := genNoise t ws
    (b, c.set t b)

/-! ### Coordinated-reset sequencer (src/audioEngine.ts:334-344)

Each tick runs `do { next = Math.floor(Math.random() * 4) } while
(next === cur)`.  A tick is modelled on the list of successive draws it
would consume: the loop returns the first draw different from `cur`, and is
undefined (`none`) when the supplied draws run out first. -/

/-- One tick's rejection-sampling loop: the first element of `draws`
different from the current index `cur` (`cur = -1` before the first tick). -/
def crSelect (cur : Int) (draws : List (Fin 4)) : Option (Fin 4) :=
  draws.find? fun d => decide ((d : Int) ≠ cur)

/-- A run of consecutive ticks: tick `k` consumes the draw list `dss[k]`.
Returns the list of selected indices, or `none` when some tick's draw list
was exhausted before producing a fresh index. -/
def crRun (cur : Int) : List (List (Fin 4)) → Option (List (Fin 4))
  | [] => some []
  | ds :: rest =>
    match crSelect cur ds with
    | none => none
    | some next => (crRun (next : Int) rest).map (next :: ·)

/-! ### stop() timing (src/audioEngine.ts:155-166)

`stop()` tears down synchronously and resolves immediately when
`!this._playing && this.sources.length === 0`; otherwise it resolves after
a `setTimeout` of `FADE_OUT_SEC * 1000 + 60` milliseconds. -/

/-- Milliseconds between a `stop()` call and the resolution of its promise,
given the `_playing` flag and the number of live sources. -/
def stopResolveDelayMs (playing : Bool) (numSources : ℕ) : ℚ :=
  if playing = false ∧ numSources = 0 then 0
  else FADE_OUT_SEC * 1000 + 60

/-! ### Helper lemmas -/

theorem clampGain_le (v : ℚ) : clampGain v ≤ MAX_SAFE_GAIN := by
  unfold clampGain
  exact max_le (by unfold MAX_SAFE_GAIN; norm_num) (min_le_right _ _)

theorem clampFreq_bounds (f : ℚ) :
    MIN_FREQ ≤ clampFreq f ∧ clampFreq f ≤ MAX_FREQ := by
  unfold clampFreq
  refine ⟨le_max_left _ _, max_le ?_ (min_le_right _ _)⟩
  unfold MIN_FREQ MAX_FREQ; norm_num

/-! ### Claim theorems -/

/-- C1 (counterexample): the coordinated-reset sequencer ramps the newly
selected tone's gain toward 0.5, which exceeds MAX_SAFE_GAIN = 0.45, so the
claim that every gain target written by the engine (per-tone sequencer
targets included) is at most 0.45 is false. -/
theorem cr_rise_target_exceeds_cap : ¬ (crRiseTarget ≤ MAX_SAFE_GAIN) := by
  unfold crRiseTarget MAX_SAFE_GAIN; norm_num

/-- C1 (amended): every master-gain target is capped — for every requested
fade-in target t the ramp target is at most MAX_SAFE_GAIN, for every volume
v the setVolume ramp target is at most MAX_SAFE_GAIN, and the sequencer's
per-tone silencing target is 0; the sequencer's per-tone rising target
however is exactly 0.5 (written to the per-tone gain nodes upstream of the
capped master gain). -/
theorem master_gain_targets_capped (t v : ℚ) :
    fadeInTarget t ≤ MAX_SAFE_GAIN ∧
    setVolumeRampTarget v ≤ MAX_SAFE_GAIN ∧
    crFallTarget ≤ MAX_SAFE_GAIN ∧
    crRiseTarget = 0.5 := by
  refine ⟨?_, clampGain_le v, ?_, rfl⟩
  · unfold fadeInTarget
    exact max_le (clampGain_le t) (by unfold MAX_SAFE_GAIN; norm_num)
  · unfold crFallTarget MAX_SAFE_GAIN; norm_num

/-- C2 (code evaluated at the failing input): after `playTone(1000,
'square')`, calling `setVolume(0.9)` while playing ramps the master gain
toward `clampGain 0.9 = 0.45`, not toward the waveform-equalized
`clampGain 0.9 × 0.15 = 0.0675` the spec requires: `setVolume` never
multiplies by the GAIN_SCALAR entry of the active waveform. -/
theorem setVolume_ignores_waveform_scalar :
    setVolumeRampTarget 0.9 = MAX_SAFE_GAIN ∧
    clampGain 0.9 * (GAIN_SCALAR "square").getD 1 = 0.0675 ∧
    setVolumeRampTarget 0.9 ≠ clampGain 0.9 * (GAIN_SCALAR "square").getD 1 := by
  have h : GAIN_SCALAR "square" = some 0.15 := rfl
  unfold setVolumeRampTarget clampGain MAX_SAFE_GAIN
  rw [h]
  norm_num [min_def, max_def]

/-- C4: when a session is active (`_playing` set or live sources present)
the promise returned by stop() resolves after FADE_OUT_SEC × 1000 + 60 ms,
which is at least FADE_OUT_SEC (in ms) and at most FADE_OUT_SEC + 100 ms
after the call; when no session is active, stop() resolves with zero
delay. -/
theorem stop_resolve_timing (playing : Bool) (n : ℕ) :
    (playing = true ∨ 0 < n →
      FADE_OUT_SEC * 1000 ≤ stopResolveDelayMs playing n ∧
      stopResolveDelayMs playing n ≤ FADE_OUT_SEC * 1000 + 100) ∧
    (playing = false ∧ n = 0 → stopResolveDelayMs playing n = 0) := by
  unfold stopResolveDelayMs FADE_OUT_SEC
  constructor
  · intro h
    rcases h with h | h
    · subst h; norm_num
    · have hn : ¬ n = 0 := Nat.pos_iff_ne_zero.mp h
      rw [if_neg (by simp [hn])]
      norm_num
  · rintro ⟨hp, hn⟩
    subst hp; subst hn
    norm_num

/-- C4 witness: concrete instances — an active session (playing, one
source) resolves within the stated window, an idle one resolves with zero
delay. -/
theorem stop_resolve_timing_witness :
    (FADE_OUT_SEC * 1000 ≤ stopResolveDelayMs true 1 ∧
      stopResolveDelayMs true 1 ≤ FADE_OUT_SEC * 1000 + 100) ∧
    stopResolveDelayMs false 0 = 0 :=
  ⟨(stop_resolve_timing true 1).1 (Or.inl rfl),
   (stop_resolve_timing false 0).2 ⟨rfl, rfl⟩⟩

/-- C6: playCoordinatedReset builds exactly four sine oscillators at
`clampFreq (centerFreq × r)` for r in the fixed ratio list, each with its
own gain node initialised to 0; at centerFreq = 4000 the four programmed
frequencies are exactly 3092, 3468, 4532, 4908. -/
theorem cr_four_oscillators (c : ℚ) :
    (playCoordinatedResetGraph c).sources =
      [.osc "sine" (clampFreq (c * 0.773)), .osc "sine" (clampFreq (c * 0.867)),
       .osc "sine" (clampFreq (c * 1.133)), .osc "sine" (clampFreq (c * 1.227))] ∧
    (playCoordinatedResetGraph c).nodes =
      [.gainNode 0, .gainNode 0, .gainNode 0, .gainNode 0] ∧
    oscFreqs (playCoordinatedResetGraph 4000).sources =
      [3092, 3468, 4532, 4908] := by
  refine ⟨rfl, rfl, ?_⟩
  simp only [oscFreqs, playCoordinatedResetGraph, crRatios, List.map_cons,
    List.map_nil, List.filterMap_cons, List.filterMap_nil, clampFreq,
    MIN_FREQ, MAX_FREQ]
  norm_num [min_def, max_def]

/-- C3 (counterexample): in amplitude-modulation mode with the default
modRate = 10, the LFO oscillator's programmed frequency is 10, which is
below MIN_FREQ = 20, so not every oscillator frequency of every mode lies
in [20, 20000]. -/
theorem am_lfo_freq_below_range :
    ¬ (∀ fr ∈ oscFreqs (playAMGraph 1000 10 0.7).sources,
        MIN_FREQ ≤ fr ∧ fr ≤ MAX_FREQ) := by
  intro h
  have h10 : (10 : ℚ) ∈ oscFreqs (playAMGraph 1000 10 0.7).sources := by
    simp [oscFreqs, playAMGraph]
  have hle := (h 10 h10).1
  unfold MIN_FREQ at hle
  norm_num at hle

/-- C3 (amended): every oscillator and filter frequency that the modes
derive from a caller-supplied frequency goes through clampFreq and lies in
[MIN_FREQ, MAX_FREQ]; the one exception is the amplitude-modulation LFO,
whose frequency is set to modRate without clamping (the AM carrier is
clamped into range). -/
theorem mode_freqs_in_range (f c q nq base beat rate depth : ℚ)
    (wave : String) (buf : List ℚ) :
    (∀ fr ∈ oscFreqs (playToneGraph f wave).sources,
      MIN_FREQ ≤ fr ∧ fr ≤ MAX_FREQ) ∧
    (∀ fr ∈ filterFreqs (playNoiseGraph buf (some c) q).nodes,
      MIN_FREQ ≤ fr ∧ fr ≤ MAX_FREQ) ∧
    (∀ fr ∈ filterFreqs (playNotchedNoiseGraph buf f nq).nodes,
      MIN_FREQ ≤ fr ∧ fr ≤ MAX_FREQ) ∧
    (∀ fr ∈ oscFreqs (playCoordinatedResetGraph c).sources,
      MIN_FREQ ≤ fr ∧ fr ≤ MAX_FREQ) ∧
    (∀ fr ∈ oscFreqs (playBinauralGraph base beat).sources,
      MIN_FREQ ≤ fr ∧ fr ≤ MAX_FREQ) ∧
    (∀ fr ∈ oscFreqs (playPhaseCancellationGraph f).sources,
      MIN_FREQ ≤ fr ∧ fr ≤ MAX_FREQ) ∧
    oscFreqs (playAMGraph f rate depth).sources = [clampFreq f, rate] ∧
    (MIN_FREQ ≤ clampFreq f ∧ clampFreq f ≤ MAX_FREQ) := by
  refine ⟨?_, ?_, ?_, ?_, ?_, ?_, rfl, clampFreq_bounds f⟩
  · intro fr hfr
    simp [oscFreqs, playToneGraph] at hfr
    exact hfr ▸ clampFreq_bounds f
  · intro fr hfr
    simp [filterFreqs, playNoiseGraph] at hfr
    exact hfr ▸ clampFreq_bounds c
  · intro fr hfr
    simp [filterFreqs, playNotchedNoiseGraph] at hfr
    exact hfr ▸ clampFreq_bounds f
  · intro fr hfr
    simp [oscFreqs, playCoordinatedResetGraph, crRatios] at hfr
    rcases hfr with rfl | rfl | rfl | rfl <;> exact clampFreq_bounds _
  · intro fr hfr
    simp [oscFreqs, playBinauralGraph] at hfr
    rcases hfr with rfl | rfl <;> exact clampFreq_bounds _
  · intro fr hfr
    simp [oscFreqs, playPhaseCancellationGraph] at hfr
    exact hfr ▸ clampFreq_bounds f

/-- C3 witness: the clamped tone-oscillator frequency for input 440 lies in
range, obtained from the amended theorem at concrete inputs. -/
theorem mode_freqs_in_range_witness :
    MIN_FREQ ≤ clampFreq 440 ∧ clampFreq 440 ≤ MAX_FREQ :=
  (mode_freqs_in_range 440 0 0 0 0 0 0 0 "sine" []).1 (clampFreq 440)
    (by simp [oscFreqs, playToneGraph])

/-- The rejection-sampling loop returns an index different from the current
one: whatever it selects was the first draw passing the `next !== cur`
test. -/
theorem crSelect_ne (cur : Int) (draws : List (Fin 4)) (d : Fin 4)
    (h : crSelect cur draws = some d) : (d : Int) ≠ cur := by
  have hp := List.find?_some h
  simpa using hp

/-- Invariant of a sequencer run: one index per tick, no two consecutive
selected indices equal, and the first selection differs from the starting
index. -/
theorem crRun_spec (dss : List (List (Fin 4))) :
    ∀ (cur : Int) (sel : List (Fin 4)), crRun cur dss = some sel →
      sel.length = dss.length ∧
      List.Chain' (fun a b : Fin 4 => a ≠ b) sel ∧
      ∀ a : Fin 4, sel.head? = some a → (a : Int) ≠ cur := by
  induction dss with
  | nil =>
    intro cur sel h
    simp only [crRun, Option.some_inj] at h
    subst h
    simp
  | cons ds rest ih =>
    intro cur sel h
    unfold crRun at h
    cases hsel : crSelect cur ds with
    | none => rw [hsel] at h; simp at h
    | some next =>
      rw [hsel] at h
      rw [Option.map_eq_some'] at h
      obtain ⟨sel', hrun, hcons⟩ := h
      subst hcons
      obtain ⟨hlen, hchain, hhead⟩ := ih (next : Int) sel' hrun
      refine ⟨by simp [hlen], ?_, ?_⟩
      · rw [List.chain'_cons']
        refine ⟨?_, hchain⟩
        intro y hy heq
        exact hhead y hy (by rw [← heq])
      · intro a ha
        rw [List.head?_cons, Option.some_inj] at ha
        subst ha
        exact crSelect_ne cur ds next hsel

/-- C5: whenever the coordinated-reset sequencer runs a sequence of ticks
(each tick redrawing uniformly from {0,1,2,3} until the draw differs from
the current index, starting from currentIndex = −1) and every tick's
rejection loop terminates, the produced selections contain no two equal
consecutive indices and yield exactly one fresh index per tick. -/
theorem cr_no_consecutive_repeat (dss : List (List (Fin 4)))
    (sel : List (Fin 4)) (h : crRun (-1) dss = some sel) :
    List.Chain' (fun a b : Fin 4 => a ≠ b) sel ∧ sel.length = dss.length :=
  ⟨(crRun_spec dss (-1) sel h).2.1, (crRun_spec dss (-1) sel h).1⟩

/-- C5 witness: a concrete three-tick run whose draws are
[0], [0, 1], [1, 0]; the loop rejects the repeated draws and selects
0, 1, 0 with no two consecutive selections equal. -/
theorem cr_no_consecutive_repeat_witness :
    List.Chain' (fun a b : Fin 4 => a ≠ b) [(0 : Fin 4), 1, 0] ∧
      ([(0 : Fin 4), 1, 0]).length = ([[(0 : Fin 4)], [0, 1], [1, 0]]).length :=
  cr_no_consecutive_repeat [[0], [0, 1], [1, 0]] [0, 1, 0] rfl

/-- C10: updateOscFrequency leaves the intermediate nodes untouched and
rewrites, position by position, exactly the oscillator entries of the
sources list to the single clamped frequency (waveform preserved, buffer
sources unchanged); consequently in AM mode both the carrier and the
modulator end up at clampFreq f, and in binaural mode the left and right
oscillators end up at the same clampFreq f, collapsing the beat
difference. -/
theorem update_osc_frequency_all_oscillators (f f0 rate depth base beat : ℚ)
    (g : Graph) :
    (updateOscFrequency f g).nodes = g.nodes ∧
    (∀ i : ℕ, (updateOscFrequency f g).sources[i]? =
      (g.sources[i]?).map fun s => match s with
        | .osc w _ => .osc w (clampFreq f)
        | .bufferSrc b l => .bufferSrc b l) ∧
    (updateOscFrequency f (playAMGraph f0 rate depth)).sources =
      [.osc "sine" (clampFreq f), .osc "sine" (clampFreq f)] ∧
    (updateOscFrequency f (playBinauralGraph base beat)).sources =
      [.osc "sine" (clampFreq f), .osc "sine" (clampFreq f)] := by
  refine ⟨rfl, ?_, rfl, rfl⟩
  intro i
  simp only [updateOscFrequency, List.getElem?_map]
  cases g.sources[i]? with
  | none => rfl
  | some s => cases s <;> rfl

theorem pinkOutputsFrom_append (ws ws' : List ℚ) : ∀ s : PinkState,
    pinkOutputsFrom s (ws ++ ws') =
      pinkOutputsFrom s ws ++ pinkOutputsFrom (pinkStateAfter s ws) ws' := by
  induction ws with
  | nil => intro s; rfl
  | cons w t ih =>
    intro s
    simp only [List.cons_append, pinkOutputsFrom, pinkStateAfter]
    rw [List.append_eq, ih]

theorem pinkStateAfter_b6 (ws : List ℚ) : ∀ s : PinkState,
    (pinkStateAfter s ws).b6 =
      ((ws.getLast?).map (· * 0.115926)).getD s.b6 := by
  induction ws with
  | nil => intro s; rfl
  | cons w t ih =>
    intro s
    show (pinkStateAfter (pinkStep s w).1 t).b6 = _
    rw [ih]
    cases t with
    | nil => rfl
    | cons y u =>
      rw [List.getLast?_cons_cons]
      cases hl : (y :: u).getLast? with
      | none => rw [List.getLast?_eq_none_iff] at hl; exact absurd hl (by simp)
      | some a => rfl

theorem brownOutputsFrom_append (ws ws' : List ℚ) : ∀ last : ℚ,
    brownOutputsFrom last (ws ++ ws') =
      brownOutputsFrom last ws ++
        brownOutputsFrom (brownLastAfter last ws) ws' := by
  induction ws with
  | nil => intro last; rfl
  | cons w t ih =>
    intro last
    simp only [List.cons_append, brownOutputsFrom, brownLastAfter]
    rw [List.append_eq, ih]

theorem getLast?_cons_getD {α : Type} (a d : α) (l : List α) :
    ((a :: l).getLast?).getD d = (l.getLast?).getD a := by
  cases l with
  | nil => rfl
  | cons y t =>
    rw [List.getLast?_cons_cons]
    cases hl : (y :: t).getLast? with
    | none => rw [List.getLast?_eq_none_iff] at hl; exact absurd hl (by simp)
    | some b => rfl

theorem brownLastAfter_eq (ws : List ℚ) : ∀ last : ℚ,
    brownLastAfter last ws =
      ((brownOutputsFrom last ws).getLast?).getD (last * 3.5) / 3.5 := by
  induction ws with
  | nil =>
    intro last
    show last = (last * 3.5) / 3.5
    rw [mul_div_assoc]
    norm_num
  | cons w t ih =>
    intro last
    show brownLastAfter (brownStep last w).1 t = _
    rw [ih]
    conv_rhs =>
      rw [show brownOutputsFrom last (w :: t) =
            (brownStep last w).2 ::
              brownOutputsFrom (brownStep last w).1 t from rfl,
        getLast?_cons_getD]
    rfl

/-- C7: the pink-noise generator emits, for each white draw w appended to a
run ws, the sample (b0 + b1 + b2 + b3 + b4 + b5 + b6 + w × 0.5362) × 0.11
where b0 … b5 are the freshly updated decay/weight terms but b6 is the
value carried over from BEFORE this sample — equal to the previous white
draw times 0.115926 (0 at the first sample, all state starting at 0) — and
only after the sum is the carry reassigned to w × 0.115926 (the one-sample
lag). -/
theorem pink_one_sample_lag (ws : List ℚ) (w : ℚ) :
    pinkOutputs (ws ++ [w]) =
      pinkOutputs ws ++
        [(0.99886 * (pinkStateAfter pinkInit ws).b0 + w * 0.0555179 +
          (0.99332 * (pinkStateAfter pinkInit ws).b1 + w * 0.0750759) +
          (0.96900 * (pinkStateAfter pinkInit ws).b2 + w * 0.1538520) +
          (0.86650 * (pinkStateAfter pinkInit ws).b3 + w * 0.3104856) +
          (0.55000 * (pinkStateAfter pinkInit ws).b4 + w * 0.5329522) +
          (-0.7616 * (pinkStateAfter pinkInit ws).b5 - w * 0.0168980) +
          (pinkStateAfter pinkInit ws).b6 + w * 0.5362) * 0.11] ∧
    (pinkStateAfter pinkInit ws).b6 =
      ((ws.getLast?).map (· * 0.115926)).getD 0 ∧
    (pinkStateAfter pinkInit (ws ++ [w])).b6 = w * 0.115926 := by
  refine ⟨?_, ?_, ?_⟩
  · rw [pinkOutputs, pinkOutputs, pinkOutputsFrom_append]
    rfl
  · rw [pinkStateAfter_b6]
    rfl
  · rw [pinkStateAfter_b6, List.getLast?_concat]
    rfl

/-- C8 (counterexample): on the white draws [1, 1] the second brown sample
produced by the code differs from the value the claim's recurrence (feeding
back the post-×3.5 output) predicts: the code feeds back the pre-×3.5
value. -/
theorem brown_feedback_counterexample :
    (brownOutputs [1, 1])[1]? ≠ (brownSpecOutputs [1, 1])[1]? := by
  simp only [brownOutputs, brownSpecOutputs, brownOutputsFrom,
    brownSpecOutputsFrom, brownStep, List.getElem?_cons_succ,
    List.getElem?_cons_zero, ne_eq, Option.some.injEq]
  norm_num

/-- C8 (amended): the brown-noise generator satisfies
output[i] = (y[i−1] + 0.02 × w_i) / 1.02 × 3.5 where the feedback value
y[i−1] is the PRE-×3.5 value of the previous step (starting at 0):
equivalently, the value fed back at step i+1 equals the step-i output
divided by 3.5, not the output itself. -/
theorem brown_prescale_feedback (ws : List ℚ) (w : ℚ) :
    brownOutputs (ws ++ [w]) =
      brownOutputs ws ++
        [(brownLastAfter 0 ws + 0.02 * w) / 1.02 * 3.5] ∧
    brownLastAfter 0 ws = ((brownOutputs ws).getLast?).getD 0 / 3.5 := by
  constructor
  · rw [brownOutputs, brownOutputs, brownOutputsFrom_append]
    rfl
  · have h := brownLastAfter_eq ws 0
    simpa [brownOutputs] using h

/-- C9: requesting a noise color a second time within one engine lifetime
is a cache hit — whatever fresh random draws ws2 the second call would have
had available, it returns exactly the buffer produced by the first call and
leaves the cache unchanged (the generator runs at most once per color). -/
theorem noise_cache_hit (c : NoiseCache) (t : NoiseColor) (ws1 ws2 : List ℚ) :
    (noiseBuf (noiseBuf c t ws1).2 t ws2).1 = (noiseBuf c t ws1).1 ∧
    (noiseBuf (noiseBuf c t ws1).2 t ws2).2 = (noiseBuf c t ws1).2 := by
  cases t with
  | white =>
    cases hw : c.whiteBuf with
    | some b => simp [noiseBuf, NoiseCache.get, hw]
    | none => simp [noiseBuf, NoiseCache.get, NoiseCache.set, hw]
  | pink =>
    cases hp : c.pinkBuf with
    | some b => simp [noiseBuf, NoiseCache.get, hp]
    | none => simp [noiseBuf, NoiseCache.get, NoiseCache.set, hp]
  | brown =>
    cases hb : c.brownBuf with
    | some b => simp [noiseBuf, NoiseCache.get, hb]
    | none => simp [noiseBuf, NoiseCache.get, NoiseCache.set, hb]

end SafeAudioEngine
